import Mathlib

/-!
Verification of the s-expression lexer/parser/evaluator example
(`src/examples/logos.rs`) of the chumsky repository.

Modelling conventions:
* Rust `f64` is modelled by `ℚ`.  Every concrete numeric scenario of the
  spec involves only small integers, for which IEEE double arithmetic is
  exact, so on those inputs the rational model agrees with the code.
* The `unreachable!` panic on evaluating an error node is modelled by a
  dedicated result constructor `EvalResult.crash` (a process abort is not a
  returned `Result` value).
* Character index = byte offset (all inputs considered are ASCII).
-/

namespace Logos

/-- Tokens of the logos lexer (`enum Token` in the source).  `whitespace`
is recognised but skipped by the lexer, `error` marks unlexable input. -/
inductive Token where
  | error
  | float (s : String)
  | add
  | sub
  | mul
  | div
  | lparen
  | rparen
  | whitespace
  deriving DecidableEq

/-- The whitespace characters of the lexer regex `[ \t\f\n]+`. -/
def isWsChar (c : Char) : Bool :=
  c = ' ' || c = '\t' || c = '\x0c' || c = '\n'

/-- The single-character tokens of the lexer (`#token` attributes). -/
def charToken (c : Char) : Option Token :=
  if c = '+' then some .add
  else if c = '-' then some .sub
  else if c = '*' then some .mul
  else if c = '/' then some .div
  else if c = '(' then some .lparen
  else if c = ')' then some .rparen
  else none

/-- Length of the longest prefix of `cs` matching the numeric-literal regex
`[+-]?([0-9]*[.])?[0-9]+` (0 when no prefix matches). -/
def floatMatchLen (cs : List Char) : Nat :=
  let sl : Nat :=
    match cs with
    | c :: _ => if c = '+' || c = '-' then 1 else 0
    | [] => 0
  let cs1 := cs.drop sl
  let d1 := (cs1.takeWhile Char.isDigit).length
  match cs1.dropWhile Char.isDigit with
  | '.' :: rest =>
      let d2 := (rest.takeWhile Char.isDigit).length
      if 0 < d2 then sl + d1 + 1 + d2
      else if 0 < d1 then sl + d1 else 0
  | _ => if 0 < d1 then sl + d1 else 0

/-- One pass of the logos lexer (longest match wins; on the sign characters
the numeric regex, when it matches at all, is at least two characters long
and therefore beats the one-character operator tokens).  Whitespace is
skipped; a character no pattern matches becomes a one-byte `Token.error`
(as arranged in `main`, which maps logos `Err` items to `Token::Error`).
Returns `(token, start, stop)` triples; fuel-indexed, each step consumes at
least one character. -/
def lexGo (fuel : Nat) (l : List Char) (pos : Nat) : List (Token × Nat × Nat) :=
  match fuel, l with
  | 0, _ => []
  | _ + 1, [] => []
  | fuel + 1, c :: cs =>
      let wlen := ((c :: cs).takeWhile isWsChar).length
      if 0 < wlen then
        lexGo fuel ((c :: cs).drop wlen) (pos + wlen)
      else
        let flen := floatMatchLen (c :: cs)
        if 0 < flen then
          (.float ⟨(c :: cs).take flen⟩, pos, pos + flen)
            :: lexGo fuel ((c :: cs).drop flen) (pos + flen)
        else
          match charToken c with
          | some t => (t, pos, pos + 1) :: lexGo fuel cs (pos + 1)
          | none => (.error, pos, pos + 1) :: lexGo fuel cs (pos + 1)

/-- Tokenise a source string. -/
def lexer (s : String) : List (Token × Nat × Nat) :=
  lexGo (s.data.length + 1) s.data 0

/-- Base-10 digit list to natural number. -/
def digitsToNat (ds : List Char) : Nat :=
  ds.foldl (fun a c => 10 * a + (c.toNat - '0'.toNat)) 0

/-- Models Rust `str::parse::<f64>` on the decimal strings matched by the
lexer's numeric regex, returning the exact rational value (the code rounds
to the nearest double; on the integer literals of all concrete scenarios
the conversion is exact, so the model agrees with the code there). -/
def parseDecimalQ (s : String) : ℚ :=
  let cs := s.data
  let neg : Bool := match cs with
    | '-' :: _ => true
    | _ => false
  let cs1 : List Char := match cs with
    | c :: rest => if c = '+' || c = '-' then rest else c :: rest
    | [] => []
  let ip := cs1.takeWhile Char.isDigit
  let fp : List Char := match cs1.dropWhile Char.isDigit with
    | '.' :: rest => rest.takeWhile Char.isDigit
    | _ => []
  let n : Int := digitsToNat (ip ++ fp)
  mkRat (if neg then -n else n) (10 ^ fp.length)

/-- Syntax-tree nodes (`enum SExpr` in the source); numbers are rationals
(see `parseDecimalQ`). -/
inductive SExpr where
  | error
  | float (x : ℚ)
  | add
  | sub
  | mul
  | div
  | list (xs : List SExpr)

/-- Result of `SExpr::eval`: `ok`/`err` model Rust `Ok`/`Err`; `crash`
models the `unreachable!` panic on an error node, which aborts the process
instead of returning a value. -/
inductive EvalResult where
  | crash (msg : String)
  | err (msg : String)
  | ok (v : ℚ)
  deriving DecidableEq

mutual

/-- Translation of `SExpr::eval` (source lines 113-133).  The list match
arms are tried in source order; the final catch-all covers the empty list,
a `-`/`/` head without a following operand, and any head that is not one of
the four operator leaves. -/
def SExpr.eval : SExpr → EvalResult
  | .error => .crash "Evaluation of an error node should never happen"
  | .float x => .ok x
  | .add => .err "Cannot evaluate operator '+'"
  | .sub => .err "Cannot evaluate operator '-'"
  | .mul => .err "Cannot evaluate operator '*'"
  | .div => .err "Cannot evaluate operator '/'"
  | .list (SExpr.add :: tail) => SExpr.evalSum tail
  | .list (SExpr.mul :: tail) => SExpr.evalProd tail
  | .list (SExpr.sub :: init :: tail) =>
      match init.eval with
      | .ok v =>
          match SExpr.evalSum tail with
          | .ok s => .ok (v - s)
          | r => r
      | r => r
  | .list (SExpr.div :: init :: tail) =>
      match init.eval with
      | .ok v =>
          match SExpr.evalProd tail with
          | .ok p => .ok (v / p)
          | r => r
      | r => r
  | .list _ => .err "Cannot evaluate list"

/-- Translation of `tail.iter().map(SExpr::eval).sum::<Result<f64, _>>()`:
evaluates the
elements left to right, short-circuiting at the first non-`Ok` outcome,
and sums the values (empty list: 0). -/
def SExpr.evalSum : List SExpr → EvalResult
  | [] => .ok 0
  | e :: rest =>
      match e.eval with
      | .ok v =>
          match SExpr.evalSum rest with
          | .ok s => .ok (v + s)
          | r => r
      | r => r

/-- Translation of `tail.iter().map(SExpr::eval).product::<Result<f64, _>>()`:
as
`SExpr.evalSum` but multiplying (empty list: 1). -/
def SExpr.evalProd : List SExpr → EvalResult
  | [] => .ok 1
  | e :: rest =>
      match e.eval with
      | .ok v =>
          match SExpr.evalProd rest with
          | .ok p => .ok (v * p)
          | r => r
      | r => r

end

mutual

/-- Holds when the tree contains no `SExpr.error` leaf. -/
def SExpr.errorFree : SExpr → Bool
  | .error => false
  | .list xs => SExpr.errorFreeAll xs
  | _ => true

/-- Holds when no tree of the list contains an `SExpr.error` leaf. -/
def SExpr.errorFreeAll : List SExpr → Bool
  | [] => true
  | e :: rest => e.errorFree && SExpr.errorFreeAll rest

end

/-- A parse error: source span `[start, stop)` and a reason string
(chumsky's `Rich::custom` reduced to the data the spec talks about). -/
structure ParseError where
  start : Nat
  stop : Nat
  reason : String
  deriving DecidableEq

/-- Substring of the source at byte span `[a, b)`, as obtained through
`.slice()` on the token stream (ASCII model). -/
def sliceStr (src : String) (a b : Nat) : String :=
  ⟨(src.data.drop a).take (b - a)⟩

/-- Modelled from the spec: the chumsky combinator engine (`recursive`,
`select!`, `repeated`, `delimited_by`, `just`, `validate`) is core code of
this repository that is not under `src/`; following spec section 4.3 and the
design note of section 9, the parser of `fn parser` is rendered as a
recursive-descent pass over the token array.  `parseMany` greedily parses a
sequence of s-expressions: an atom token becomes the corresponding leaf, an
error token becomes an `SExpr.error` leaf while recording a parse error
whose reason holds the exact source slice (`Unrecognised token '<slice>'`),
and `(` starts a nested sequence that must be closed by `)` (otherwise the
`(` starts no expression and the sequence stops, discarding the failed
branch as backtracking does).  Returns the parsed items, the unconsumed
tokens, and the errors in emission order.  Fuel-indexed; each recursive
call strictly decreases the fuel. -/
def parseMany (src : String) :
    Nat → List (Token × Nat × Nat) →
      List SExpr × List (Token × Nat × Nat) × List ParseError
  | 0, toks => ([], toks, [])
  | _ + 1, [] => ([], [], [])
  | fuel + 1, (t, a, b) :: rest =>
      match t with
      | .float s =>
          let (items, r, errs) := parseMany src fuel rest
          (SExpr.float (parseDecimalQ s) :: items, r, errs)
      | .add =>
          let (items, r, errs) := parseMany src fuel rest
          (SExpr.add :: items, r, errs)
      | .sub =>
          let (items, r, errs) := parseMany src fuel rest
          (SExpr.sub :: items, r, errs)
      | .mul =>
          let (items, r, errs) := parseMany src fuel rest
          (SExpr.mul :: items, r, errs)
      | .div =>
          let (items, r, errs) := parseMany src fuel rest
          (SExpr.div :: items, r, errs)
      | .error =>
          let (items, r, errs) := parseMany src fuel rest
          (SExpr.error :: items, r,
            ⟨a, b, "Unrecognised token '" ++ sliceStr src a b ++ "'"⟩ :: errs)
      | .lparen =>
          match parseMany src fuel rest with
          | (inner, (Token.rparen, _, _) :: rest2, errsI) =>
              let (items, r, errs) := parseMany src fuel rest2
              (SExpr.list inner :: items, r, errsI ++ errs)
          | _ => ([], (t, a, b) :: rest, [])
      | .rparen => ([], (t, a, b) :: rest, [])
      | .whitespace => ([], (t, a, b) :: rest, [])

/-- Modelled from the spec: top-level `parser().parse(token_stream)`
consumes exactly one expression and then the end of input (spec section
4.3, termination rule); when that fails the parse produces no output and
at least one error is reported.  Only the successful-consumption path is
exercised by the claims. -/
def parse (src : String) : Option SExpr × List ParseError :=
  let toks := lexer src
  match parseMany src (2 * toks.length + 2) toks with
  | ([e], [], errs) => (some e, errs)
  | (_, _, errs) =>
      (none, errs ++ [⟨src.data.length, src.data.length, "expected end of input"⟩])

/-- The end-to-end pipeline of `main` (source lines 143-169): lex, parse,
and evaluate only when parsing produced an output with an empty error
sequence. -/
def run (src : String) : Option EvalResult :=
  match parse src with
  | (some e, []) => some e.eval
  | _ => none

/-- Holds when `sub` occurs as a contiguous subsequence of the second
list. -/
def containsSeq (sub : List Char) : List Char → Bool
  | [] => sub.isEmpty
  | c :: cs => sub.isPrefixOf (c :: cs) || containsSeq sub cs

/-- Case-insensitive (ASCII) substring test: `mentions s sub` reads "`s`
mentions `sub`". -/
def mentions (s sub : String) : Bool :=
  containsSeq (sub.data.map Char.toLower) (s.data.map Char.toLower)

/-- Holds exactly on `SExpr.error` leaves. -/
def SExpr.isErrorLeaf : SExpr → Bool
  | .error => true
  | _ => false

/-- Holds exactly on the four operator leaves. -/
def SExpr.isOpLeaf : SExpr → Bool
  | .add => true
  | .sub => true
  | .mul => true
  | .div => true
  | _ => false

/-- Holds exactly on the `-` leaf. -/
def SExpr.isSubLeaf : SExpr → Bool
  | .sub => true
  | _ => false

/-- Holds exactly on the `/` leaf. -/
def SExpr.isDivLeaf : SExpr → Bool
  | .div => true
  | _ => false

/-- The list shapes the catch-all arm of `SExpr::eval` rejects: the empty
list, a head that is not one of the four operator leaves, or a `-`/`/`
head with no trailing operand. -/
def badListShape : List SExpr → Bool
  | [] => true
  | x :: rest => !x.isOpLeaf || (rest.isEmpty && (x.isSubLeaf || x.isDivLeaf))

/-- Drop one optional leading sign character. -/
def dropSign : List Char → List Char
  | c :: cs => if c = '+' || c = '-' then cs else c :: cs
  | [] => []

/-- Full-string match of the lexer's numeric-literal regex
`[+-]?([0-9]*[.])?[0-9]+` (source line 17): an optional sign, then either
only digits (at least one), or digits (possibly none), one dot, and at
least one digit. -/
def floatTokenMatch (cs : List Char) : Bool :=
  match (dropSign cs).dropWhile Char.isDigit with
  | [] => !(dropSign cs).isEmpty
  | '.' :: rest => !rest.isEmpty && rest.all Char.isDigit
  | _ => false

/-- Optional exponent part of Rust's float grammar:
`('e'|'E') Sign? Digits` or nothing. -/
def rustExpMatch : List Char → Bool
  | [] => true
  | c :: rest =>
      (c = 'e' || c = 'E') &&
        (!(dropSign rest).isEmpty && (dropSign rest).all Char.isDigit)

/-- The `Number` production of Rust's documented `f64::from_str` grammar:
`Digits '.'? Digits? Exp? | '.' Digits Exp?`  (modelled from the Rust
standard library documentation; `f64::from_str` is external library code). -/
def rustNumberMatch (cs : List Char) : Bool :=
  if (cs.takeWhile Char.isDigit).isEmpty then
    match cs.dropWhile Char.isDigit with
    | '.' :: rest =>
        !(rest.takeWhile Char.isDigit).isEmpty &&
          rustExpMatch (rest.dropWhile Char.isDigit)
    | _ => false
  else
    match cs.dropWhile Char.isDigit with
    | [] => true
    | '.' :: rest => rustExpMatch (rest.dropWhile Char.isDigit)
    | r => rustExpMatch r

/-- The case-insensitive special values of Rust's float grammar. -/
def rustSpecialMatch (cs : List Char) : Bool :=
  cs.map Char.toLower = "inf".data ||
    cs.map Char.toLower = "infinity".data ||
    cs.map Char.toLower = "nan".data

/-- Acceptance by Rust's documented `f64::from_str` grammar:
`Sign? ('inf' | 'infinity' | 'nan' | Number)`, case-insensitive on the
special values.  `str::parse::<f64>` succeeds exactly on such strings. -/
def rustF64Accepts (cs : List Char) : Bool :=
  rustNumberMatch (dropSign cs) || rustSpecialMatch (dropSign cs)

/-! ### Helper lemmas -/

/-- When every element of `tail` evaluates to the corresponding value of
`vs`, the `Result` sum is `Ok` of the sum of `vs`. -/
theorem evalSum_forall₂ {tail : List SExpr} {vs : List ℚ}
    (h : List.Forall₂ (fun e v => SExpr.eval e = .ok v) tail vs) :
    SExpr.evalSum tail = .ok vs.sum := by
  induction h with
  | nil => simp [SExpr.evalSum]
  | cons h _ ih => simp [SExpr.evalSum, h, ih]

/-- When every element of `tail` evaluates to the corresponding value of
`vs`, the `Result` product is `Ok` of the product of `vs`. -/
theorem evalProd_forall₂ {tail : List SExpr} {vs : List ℚ}
    (h : List.Forall₂ (fun e v => SExpr.eval e = .ok v) tail vs) :
    SExpr.evalProd tail = .ok vs.prod := by
  induction h with
  | nil => simp [SExpr.evalProd]
  | cons h _ ih => simp [SExpr.evalProd, h, ih]

theorem parseDecimalQ_lit1 : parseDecimalQ "1" = 1 := by
  rw [show parseDecimalQ "1" = mkRat 1 1 from rfl]; norm_num

theorem parseDecimalQ_lit2 : parseDecimalQ "2" = 2 := by
  rw [show parseDecimalQ "2" = mkRat 2 1 from rfl]; norm_num

theorem parseDecimalQ_lit3 : parseDecimalQ "3" = 3 := by
  rw [show parseDecimalQ "3" = mkRat 3 1 from rfl]; norm_num

theorem parseDecimalQ_lit8 : parseDecimalQ "8" = 8 := by
  rw [show parseDecimalQ "8" = mkRat 8 1 from rfl]; norm_num

theorem parseDecimalQ_lit10 : parseDecimalQ "10" = 10 := by
  rw [show parseDecimalQ "10" = mkRat 10 1 from rfl]; norm_num

/-! ### Claims -/

/-- C2: for every list expression whose head is the `+` operator leaf and
whose remaining elements all evaluate successfully, evaluation returns the
sum of the evaluations of the remaining elements, an empty tail yields 0;
in particular the input `"(+ 1 2 3)"` evaluates to 6 and the input `"(+)"`
evaluates to 0. -/
theorem eval_add_head_sums :
    (∀ (tail : List SExpr) (vs : List ℚ),
        List.Forall₂ (fun e v => SExpr.eval e = .ok v) tail vs →
        SExpr.eval (.list (.add :: tail)) = .ok vs.sum) ∧
    run "(+ 1 2 3)" = some (.ok 6) ∧
    run "(+)" = some (.ok 0) := by
  refine ⟨fun tail vs h => ?_, ?_, ?_⟩
  · rw [show SExpr.eval (.list (.add :: tail)) = SExpr.evalSum tail from by
      simp [SExpr.eval]]
    exact evalSum_forall₂ h
  · have hp : parse "(+ 1 2 3)" =
        (some (.list [.add, .float (parseDecimalQ "1"), .float (parseDecimalQ "2"),
          .float (parseDecimalQ "3")]), []) := rfl
    simp [run, hp, SExpr.eval, SExpr.evalSum,
      parseDecimalQ_lit1, parseDecimalQ_lit2, parseDecimalQ_lit3]
    norm_num
  · have hp : parse "(+)" = (some (.list [.add]), []) := rfl
    simp [run, hp, SExpr.eval, SExpr.evalSum]

/-- Witness for C2: instantiating the universal part at the empty tail
gives the additive identity. -/
theorem eval_add_head_sums_witness :
    SExpr.eval (.list [.add]) = .ok 0 :=
  eval_add_head_sums.1 [] [] List.Forall₂.nil

/-- C3: for every list expression whose head is the `-` operator leaf,
evaluation requires at least one operand after the head and returns the
first operand's evaluation minus the sum of the evaluations of the rest;
with no trailing operand the catch-all shape error is produced; in
particular the input `"(- 10 3 2)"` evaluates to 5. -/
theorem eval_sub_head :
    (∀ (init : SExpr) (tail : List SExpr) (v : ℚ) (vs : List ℚ),
        SExpr.eval init = .ok v →
        List.Forall₂ (fun e w => SExpr.eval e = .ok w) tail vs →
        SExpr.eval (.list (.sub :: init :: tail)) = .ok (v - vs.sum)) ∧
    SExpr.eval (.list [.sub]) = .err "Cannot evaluate list" ∧
    run "(- 10 3 2)" = some (.ok 5) := by
  refine ⟨fun init tail v vs h1 h2 => ?_, by simp [SExpr.eval], ?_⟩
  · simp [SExpr.eval, h1, evalSum_forall₂ h2]
  · have hp : parse "(- 10 3 2)" =
        (some (.list [.sub, .float (parseDecimalQ "10"), .float (parseDecimalQ "3"),
          .float (parseDecimalQ "2")]), []) := rfl
    simp [run, hp, SExpr.eval, SExpr.evalSum,
      parseDecimalQ_lit10, parseDecimalQ_lit3, parseDecimalQ_lit2]
    norm_num

/-- Witness for C3: `(- 1)` evaluates to `1 - 0 = 1`. -/
theorem eval_sub_head_witness :
    SExpr.eval (.list [.sub, .float 1]) = .ok 1 := by
  have h := eval_sub_head.1 (.float 1) [] 1 [] (by simp [SExpr.eval]) List.Forall₂.nil
  simpa using h

/-- C4: for every list expression whose head is the `/` operator leaf,
evaluation requires at least one operand after the head and returns the
first operand's evaluation divided by the product of the evaluations of
the rest; there is no special division-by-zero guard: a zero divisor still
produces an `ok` value rather than a semantic error (the concrete IEEE
infinite/NaN payload lies outside the rational model); with no trailing
operand the catch-all shape error is produced; in particular the input
`"(/ 8 2 2)"` evaluates to 2. -/
theorem eval_div_head :
    (∀ (init : SExpr) (tail : List SExpr) (v : ℚ) (vs : List ℚ),
        SExpr.eval init = .ok v →
        List.Forall₂ (fun e w => SExpr.eval e = .ok w) tail vs →
        SExpr.eval (.list (.div :: init :: tail)) = .ok (v / vs.prod)) ∧
    (∀ (init : SExpr) (tail : List SExpr) (v : ℚ) (vs : List ℚ),
        SExpr.eval init = .ok v →
        List.Forall₂ (fun e w => SExpr.eval e = .ok w) tail vs →
        vs.prod = 0 →
        ∃ w, SExpr.eval (.list (.div :: init :: tail)) = .ok w) ∧
    SExpr.eval (.list [.div]) = .err "Cannot evaluate list" ∧
    run "(/ 8 2 2)" = some (.ok 2) := by
  have main : ∀ (init : SExpr) (tail : List SExpr) (v : ℚ) (vs : List ℚ),
      SExpr.eval init = .ok v →
      List.Forall₂ (fun e w => SExpr.eval e = .ok w) tail vs →
      SExpr.eval (.list (.div :: init :: tail)) = .ok (v / vs.prod) := by
    intro init tail v vs h1 h2
    simp [SExpr.eval, h1, evalProd_forall₂ h2]
  refine ⟨main, fun init tail v vs h1 h2 _ => ⟨_, main init tail v vs h1 h2⟩,
    by simp [SExpr.eval], ?_⟩
  have hp : parse "(/ 8 2 2)" =
      (some (.list [.div, .float (parseDecimalQ "8"), .float (parseDecimalQ "2"),
        .float (parseDecimalQ "2")]), []) := rfl
  simp [run, hp, SExpr.eval, SExpr.evalProd, parseDecimalQ_lit8, parseDecimalQ_lit2]
  norm_num

/-- Witness for C4: `(/ 8 2 2)` as a tree evaluates to `8 / (2 * 2) = 2`. -/
theorem eval_div_head_witness :
    SExpr.eval (.list [.div, .float 8, .float 2, .float 2]) = .ok 2 := by
  have h := eval_div_head.1 (.float 8) [.float 2, .float 2] 8 [2, 2]
    (by simp [SExpr.eval])
    (List.Forall₂.cons (by simp [SExpr.eval])
      (List.Forall₂.cons (by simp [SExpr.eval]) List.Forall₂.nil))
  norm_num at h
  exact h

/-- C5: for every list expression whose head is the `*` operator leaf and
whose remaining elements all evaluate successfully, evaluation returns the
product of the evaluations of the remaining elements, an empty tail yields
1; in particular the input `"(* )"` evaluates to 1. -/
theorem eval_mul_head_multiplies :
    (∀ (tail : List SExpr) (vs : List ℚ),
        List.Forall₂ (fun e v => SExpr.eval e = .ok v) tail vs →
        SExpr.eval (.list (.mul :: tail)) = .ok vs.prod) ∧
    run "(* )" = some (.ok 1) := by
  refine ⟨fun tail vs h => ?_, ?_⟩
  · rw [show SExpr.eval (.list (.mul :: tail)) = SExpr.evalProd tail from by
      simp [SExpr.eval]]
    exact evalProd_forall₂ h
  · have hp : parse "(* )" = (some (.list [.mul]), []) := rfl
    simp [run, hp, SExpr.eval, SExpr.evalProd]

/-- Witness for C5: instantiating the universal part at the empty tail
gives the multiplicative identity. -/
theorem eval_mul_head_multiplies_witness :
    SExpr.eval (.list [.mul]) = .ok 1 :=
  eval_mul_head_multiplies.1 [] [] List.Forall₂.nil

/-- C10: for every expression evaluating to `v`, a `-` list with that sole
operand evaluates to `v - 0 = v` and a `/` list with that sole operand
evaluates to `v / 1 = v`. -/
theorem eval_sub_div_singleton_identity :
    ∀ (e : SExpr) (v : ℚ), SExpr.eval e = .ok v →
      SExpr.eval (.list [.sub, e]) = .ok v ∧
      SExpr.eval (.list [.div, e]) = .ok v := by
  intro e v h
  constructor
  · simp [SExpr.eval, h, SExpr.evalSum]
  · simp [SExpr.eval, h, SExpr.evalProd]

/-- Witness for C10 at the numeric leaf 5. -/
theorem eval_sub_div_singleton_identity_witness :
    SExpr.eval (.list [.sub, .float 5]) = .ok 5 ∧
    SExpr.eval (.list [.div, .float 5]) = .ok 5 :=
  eval_sub_div_singleton_identity (.float 5) 5 (by simp [SExpr.eval])

/-- C1: parsing the input `"(+ 1 @)"` yields exactly one parse error; its
span `[5, 6)` covers the `@` byte; its reason mentions (case-insensitively)
"unrecognised token '@'"; and the recovered tree is a list containing the
numeric leaf 1 and exactly one error leaf. -/
theorem parse_recovers_unrecognised_token :
    (parse "(+ 1 @)").2 = [⟨5, 6, "Unrecognised token '@'"⟩] ∧
    mentions "Unrecognised token '@'" "unrecognised token '@'" = true ∧
    ∃ l, (parse "(+ 1 @)").1 = some (SExpr.list l) ∧
      SExpr.float 1 ∈ l ∧ l.countP SExpr.isErrorLeaf = 1 := by
  refine ⟨by decide, by decide,
    [.add, .float (parseDecimalQ "1"), .error], rfl, ?_, by decide⟩
  rw [parseDecimalQ_lit1]
  simp

/-- C6 counterexample: the catch-all reason string of `SExpr::eval` is
capitalised, so the empty list does not fail with the all-lowercase reason
the claim states. -/
theorem eval_empty_list_reason_not_lowercase :
    SExpr.eval (.list []) ≠ .err "cannot evaluate list" := by
  rw [show SExpr.eval (.list []) = .err "Cannot evaluate list" from by simp [SExpr.eval]]
  simp

/-- C6 (amended capitalisation): every list expression that is empty, or
whose head is not one of the four operator leaves, or whose head is `-` or
`/` with no trailing operand, evaluates to the error "Cannot evaluate
list". -/
theorem eval_bad_shape_list :
    ∀ xs : List SExpr, badListShape xs = true →
      SExpr.eval (SExpr.list xs) = .err "Cannot evaluate list" := by
  intro xs h
  cases xs with
  | nil => simp [SExpr.eval]
  | cons head rest =>
    cases head with
    | error => simp [SExpr.eval]
    | float x => simp [SExpr.eval]
    | list l => simp [SExpr.eval]
    | add => simp [badListShape, SExpr.isOpLeaf, SExpr.isSubLeaf, SExpr.isDivLeaf] at h
    | mul => simp [badListShape, SExpr.isOpLeaf, SExpr.isSubLeaf, SExpr.isDivLeaf] at h
    | sub =>
      cases rest with
      | nil => simp [SExpr.eval]
      | cons b r =>
        simp [badListShape, SExpr.isOpLeaf, SExpr.isSubLeaf, SExpr.isDivLeaf] at h
    | div =>
      cases rest with
      | nil => simp [SExpr.eval]
      | cons b r =>
        simp [badListShape, SExpr.isOpLeaf, SExpr.isSubLeaf, SExpr.isDivLeaf] at h

/-- Witness for the amended C6, at the empty list. -/
theorem eval_bad_shape_list_witness :
    SExpr.eval (SExpr.list []) = .err "Cannot evaluate list" :=
  eval_bad_shape_list [] (by decide)

/-- C7 counterexample: the operator-leaf reason string of `SExpr::eval` is
capitalised, so a bare `+` leaf does not fail with the all-lowercase
reason the claim states. -/
theorem eval_add_leaf_reason_not_lowercase :
    SExpr.eval SExpr.add ≠ .err "cannot evaluate operator '+'" := by
  rw [show SExpr.eval SExpr.add = .err "Cannot evaluate operator '+'" from by
    simp [SExpr.eval]]
  simp

/-- C7 (amended capitalisation): evaluating a bare operator leaf outside of
list-head position fails with "Cannot evaluate operator '<symbol>'" where
`<symbol>` is that operator's character. -/
theorem eval_operator_leaf_errs :
    SExpr.eval SExpr.add = .err "Cannot evaluate operator '+'" ∧
    SExpr.eval SExpr.sub = .err "Cannot evaluate operator '-'" ∧
    SExpr.eval SExpr.mul = .err "Cannot evaluate operator '*'" ∧
    SExpr.eval SExpr.div = .err "Cannot evaluate operator '/'" := by
  refine ⟨?_, ?_, ?_, ?_⟩ <;> simp [SExpr.eval]

/-- Size-bounded induction behind C8: an error-free expression never
evaluates to `crash`, and lists of error-free expressions give crash-free
`evalSum`/`evalProd`. -/
theorem eval_no_crash_below :
    ∀ n : Nat,
      (∀ e : SExpr, sizeOf e ≤ n → SExpr.errorFree e = true →
        ∀ m, SExpr.eval e ≠ .crash m) ∧
      (∀ l : List SExpr, sizeOf l ≤ n → SExpr.errorFreeAll l = true →
        (∀ m, SExpr.evalSum l ≠ .crash m) ∧ (∀ m, SExpr.evalProd l ≠ .crash m)) := by
  intro n
  induction n using Nat.strong_induction_on with
  | _ n ih =>
    constructor
    · intro e hsize hfree m
      cases e with
      | error => simp [SExpr.errorFree] at hfree
      | float x => simp [SExpr.eval]
      | add => simp [SExpr.eval]
      | sub => simp [SExpr.eval]
      | mul => simp [SExpr.eval]
      | div => simp [SExpr.eval]
      | list xs =>
        simp only [SExpr.errorFree] at hfree
        simp only [SExpr.list.sizeOf_spec] at hsize
        cases xs with
        | nil => simp [SExpr.eval]
        | cons head tail =>
          simp only [List.cons.sizeOf_spec] at hsize
          simp only [SExpr.errorFreeAll] at hfree
          rw [Bool.and_eq_true] at hfree
          cases head with
          | error => simp [SExpr.errorFree] at hfree
          | float x => simp [SExpr.eval]
          | list l => simp [SExpr.eval]
          | add =>
            have hlt : sizeOf tail < n := by
              simp only [SExpr.add.sizeOf_spec] at hsize; omega
            simp only [SExpr.eval]
            exact ((ih (sizeOf tail) hlt).2 tail le_rfl hfree.2).1 m
          | mul =>
            have hlt : sizeOf tail < n := by
              simp only [SExpr.mul.sizeOf_spec] at hsize; omega
            simp only [SExpr.eval]
            exact ((ih (sizeOf tail) hlt).2 tail le_rfl hfree.2).2 m
          | sub =>
            cases tail with
            | nil => simp [SExpr.eval]
            | cons init tail2 =>
              simp only [SExpr.sub.sizeOf_spec, List.cons.sizeOf_spec] at hsize
              simp only [SExpr.errorFreeAll] at hfree
              rw [Bool.and_eq_true] at hfree
              have hi : SExpr.errorFree init = true := hfree.2.1
              have ht : SExpr.errorFreeAll tail2 = true := hfree.2.2
              have hlt1 : sizeOf init < n := by omega
              have hlt2 : sizeOf tail2 < n := by omega
              have hA := (ih (sizeOf init) hlt1).1 init le_rfl hi
              have hB := ((ih (sizeOf tail2) hlt2).2 tail2 le_rfl ht).1
              cases h1 : SExpr.eval init with
              | crash mm => exact absurd h1 (hA mm)
              | err mm => simp [SExpr.eval, h1]
              | ok v =>
                cases h2 : SExpr.evalSum tail2 with
                | crash mm => exact absurd h2 (hB mm)
                | err mm => simp [SExpr.eval, h1, h2]
                | ok s => simp [SExpr.eval, h1, h2]
          | div =>
            cases tail with
            | nil => simp [SExpr.eval]
            | cons init tail2 =>
              simp only [SExpr.div.sizeOf_spec, List.cons.sizeOf_spec] at hsize
              simp only [SExpr.errorFreeAll] at hfree
              rw [Bool.and_eq_true] at hfree
              have hi : SExpr.errorFree init = true := hfree.2.1
              have ht : SExpr.errorFreeAll tail2 = true := hfree.2.2
              have hlt1 : sizeOf init < n := by omega
              have hlt2 : sizeOf tail2 < n := by omega
              have hA := (ih (sizeOf init) hlt1).1 init le_rfl hi
              have hB := ((ih (sizeOf tail2) hlt2).2 tail2 le_rfl ht).2
              cases h1 : SExpr.eval init with
              | crash mm => exact absurd h1 (hA mm)
              | err mm => simp [SExpr.eval, h1]
              | ok v =>
                cases h2 : SExpr.evalProd tail2 with
                | crash mm => exact absurd h2 (hB mm)
                | err mm => simp [SExpr.eval, h1, h2]
                | ok p => simp [SExpr.eval, h1, h2]
    · intro l hsize hfreeAll
      cases l with
      | nil =>
        constructor <;> intro m <;> simp [SExpr.evalSum, SExpr.evalProd]
      | cons e rest =>
        simp only [List.cons.sizeOf_spec] at hsize
        simp only [SExpr.errorFreeAll] at hfreeAll
        rw [Bool.and_eq_true] at hfreeAll
        have hlt1 : sizeOf e < n := by omega
        have hlt2 : sizeOf rest < n := by omega
        have hA := (ih (sizeOf e) hlt1).1 e le_rfl hfreeAll.1
        have hB := (ih (sizeOf rest) hlt2).2 rest le_rfl hfreeAll.2
        constructor
        · intro m
          cases h1 : SExpr.eval e with
          | crash mm => exact absurd h1 (hA mm)
          | err mm => simp [SExpr.evalSum, h1]
          | ok v =>
            cases h2 : SExpr.evalSum rest with
            | crash mm => exact absurd h2 (hB.1 mm)
            | err mm => simp [SExpr.evalSum, h1, h2]
            | ok s => simp [SExpr.evalSum, h1, h2]
        · intro m
          cases h1 : SExpr.eval e with
          | crash mm => exact absurd h1 (hA mm)
          | err mm => simp [SExpr.evalProd, h1]
          | ok v =>
            cases h2 : SExpr.evalProd rest with
            | crash mm => exact absurd h2 (hB.2 mm)
            | err mm => simp [SExpr.evalProd, h1, h2]
            | ok p => simp [SExpr.evalProd, h1, h2]

/-- C8: under the precondition that a tree contains no error leaf,
evaluation never reaches the error-leaf branch (the `unreachable!` path is
dead code); evaluating the error leaf itself is the unchecked contract
violation, modelled as `crash`, not a returned error value. -/
theorem eval_error_free_no_crash :
    (∀ e : SExpr, SExpr.errorFree e = true → ∀ m, SExpr.eval e ≠ .crash m) ∧
    SExpr.eval SExpr.error =
      .crash "Evaluation of an error node should never happen" := by
  constructor
  · intro e hfree m
    exact (eval_no_crash_below (sizeOf e)).1 e le_rfl hfree m
  · simp [SExpr.eval]

/-- Witness for C8 at a concrete error-free tree. -/
theorem eval_error_free_no_crash_witness :
    SExpr.eval (SExpr.list [SExpr.add, SExpr.float 1]) ≠
      EvalResult.crash "Evaluation of an error node should never happen" :=
  eval_error_free_no_crash.1 (SExpr.list [SExpr.add, SExpr.float 1])
    (by simp [SExpr.errorFree, SExpr.errorFreeAll]) _

/-- C9: every string matched by the lexer's numeric-literal regex
`[+-]?([0-9]*[.])?[0-9]+` is accepted by Rust's `f64::from_str` grammar,
so the `parse().unwrap()` in the parser's atom production never panics. -/
theorem float_regex_always_parses :
    ∀ cs : List Char, floatTokenMatch cs = true → rustF64Accepts cs = true := by
  intro cs h
  unfold floatTokenMatch at h
  unfold rustF64Accepts
  simp only [Bool.or_eq_true]
  left
  split at h
  next heq =>
    have htw : (dropSign cs).takeWhile Char.isDigit = dropSign cs := by
      conv_rhs =>
        rw [← List.takeWhile_append_dropWhile (p := Char.isDigit) (l := dropSign cs)]
      rw [heq, List.append_nil]
    rw [Bool.not_eq_true'] at h
    simp only [rustNumberMatch, htw, heq, h]
    simp
  next rest heq =>
    rw [Bool.and_eq_true] at h
    obtain ⟨h1, h2⟩ := h
    have hall : ∀ x ∈ rest, Char.isDigit x := fun x hx => by
      simpa using List.all_eq_true.mp h2 x hx
    have htw2 : rest.takeWhile Char.isDigit = rest :=
      List.takeWhile_eq_self_iff.mpr hall
    have hdw2 : rest.dropWhile Char.isDigit = [] :=
      List.dropWhile_eq_nil_iff.mpr hall
    cases htw : ((dropSign cs).takeWhile Char.isDigit).isEmpty with
    | true =>
      simp only [rustNumberMatch, htw, heq, htw2, hdw2, rustExpMatch]
      simp [h1]
    | false =>
      simp only [rustNumberMatch, htw, heq, hdw2, rustExpMatch]
      simp
  next => simp at h

/-- Witness for C9 at the literal "12.5". -/
theorem float_regex_always_parses_witness :
    floatTokenMatch "12.5".data = true ∧ rustF64Accepts "12.5".data = true :=
  ⟨by decide, float_regex_always_parses "12.5".data (by decide)⟩

end Logos
